import Mathlib

/-!
# go-news: the DynamoDB-backed subscriber store of `news.go`

The three methods of `Store` (`AddSubscriber`, `RemoveSubscriber`,
`GetSubscribers`) are embedded as pure functions over an explicit state of the
storage service.  What the methods do themselves (which record they build, which
request they send, which error they hand back, how they collect the emails) is
translated from `news.go`.  What the AWS SDK and the DynamoDB service do is not
part of the repository; it is modelled from the storage contract of the
specification and is marked as such.  Three things are decided outside the
methods and are arguments of the embedding: the time `now` of `time.Now()`, the
failure `fault` of a request, and the `page` to which the service cuts the one
response of a query.
-/

namespace News

/-! ## Values exchanged with the storage service -/

/-- Go `error` values that are not nil; a nil error is `none : Option Err`. -/
abbrev Err := String

/-- Go `time.Time` instants, counted in nanoseconds from Go's zero time. -/
abbrev Time := Int

/-- The members of `dynamodb.AttributeValue` that carry a scalar.  The source
builds the `S` member only (`{S: aws.String(newsletter)}`); the others stand for
whatever else a table may hold in an attribute. -/
inductive AttributeValue where
  | S (s : String)
  | N (s : String)
  | BOOL (b : Bool)
  | NULL
  deriving DecidableEq, Repr

/-- Go `map[string]dynamodb.AttributeValue`, as an association list read at the
first entry of a name. -/
abbrev AttrMap := List (String × AttributeValue)

/-- Map lookup `m[k]`. -/
def AttrMap.get : AttrMap → String → Option AttributeValue
  | [], _ => none
  | (k', v) :: m, k => if k' = k then some v else AttrMap.get m k

/-- The `item` model of `news.go`, lines 16 to 20: the fields `Newsletter`,
`Email` and `CreatedAt`. -/
structure item where
  Newsletter : String
  Email : String
  CreatedAt : Time
  deriving DecidableEq, Repr

/-- The struct tag of `item.Newsletter`. -/
abbrev item.tagNewsletter : String := "newsletter"

/-- The struct tag of `item.Email`. -/
abbrev item.tagEmail : String := "email"

/-- The struct tag of `item.CreatedAt`. -/
abbrev item.tagCreatedAt : String := "created_at"

/-- The struct tags of `item`, in the order of its fields. -/
def item.tags : List String := [item.tagNewsletter, item.tagEmail, item.tagCreatedAt]

/-- The `Store` of `news.go`.  Its `Client` field is the handle to the storage
service, whose state is passed explicitly (`Backend` below). -/
structure Store where
  TableName : String
  deriving DecidableEq, Repr

/-! ## The SDK packages `dynamodbattribute` and `expression` -/

/-- The behaviour of the SDK that neither the source nor the specification
fixes: whether encoding a record or building a query expression reports an
error, how a `time.Time` is written as an attribute, and what decoding makes of
the `created_at` attribute of a stored item. -/
structure SDK where
  marshalErr : item → Option Err
  encodeTime : Time → AttributeValue
  buildErr : String → String → Option Err
  decodeTime : Option AttributeValue → Except Err Time

/-- Modelled from the spec: the SDK encoder on a Go string (not in the
repository).  A string is written as a string attribute, except the empty
string, which the encoder writes as NULL. -/
def encodeString (s : String) : AttributeValue :=
  if s = "" then .NULL else .S s

/-- Modelled from the spec: `dynamodbattribute.MarshalMap` of the SDK, which is
not in the repository.  A record serializes to one attribute per field of
`item`, named by the field's struct tag. -/
def MarshalMap (sdk : SDK) (v : item) : Except Err AttrMap :=
  match sdk.marshalErr v with
  | some err => .error err
  | none =>
    .ok [(item.tagNewsletter, encodeString v.Newsletter), (item.tagEmail, encodeString v.Email),
         (item.tagCreatedAt, sdk.encodeTime v.CreatedAt)]

/-- Modelled from the spec: the SDK decoder on a Go string field (not in the
repository).  A string attribute gives its text, a number attribute the text of
the number, an absent or NULL attribute leaves the zero value, a boolean is a
type error. -/
def decodeString : Option AttributeValue → Except Err String
  | some (.S s) => .ok s
  | some (.N s) => .ok s
  | none => .ok ""
  | some .NULL => .ok ""
  | some (.BOOL _) => .error "UnmarshalTypeError"

/-- Modelled from the spec: decoding of one stored item into an `item` (the SDK
decoder is not in the repository); every field is read from the attribute its
struct tag names. -/
def UnmarshalMap (sdk : SDK) (m : AttrMap) : Except Err item :=
  match decodeString (m.get item.tagNewsletter) with
  | .error err => .error err
  | .ok n =>
    match decodeString (m.get item.tagEmail) with
    | .error err => .error err
    | .ok e =>
      match sdk.decodeTime (m.get item.tagCreatedAt) with
      | .error err => .error err
      | .ok t => .ok { Newsletter := n, Email := e, CreatedAt := t }

/-- Modelled from the spec: `dynamodbattribute.UnmarshalListOfMaps`, decoding
the items one by one, in order, and failing as a whole when one item fails. -/
def UnmarshalListOfMaps (sdk : SDK) : List AttrMap → Except Err (List item)
  | [] => .ok []
  | m :: ms =>
    match UnmarshalMap sdk m with
    | .error err => .error err
    | .ok v =>
      match UnmarshalListOfMaps sdk ms with
      | .error err => .error err
      | .ok vs => .ok (v :: vs)

/-- What `expression.Builder.Build` returns: the attribute names and values the
expression refers to by placeholder, and the key condition over placeholders
(name placeholder, value placeholder), read `name = value`. -/
structure Expression where
  Names : List (String × String)
  Values : AttrMap
  KeyCondition : String × String
  deriving DecidableEq, Repr

/-- Modelled from the spec: `expression.NewBuilder().WithKeyCondition(
expression.Key(key).Equal(expression.Value(value))).Build()` for a string
`value`, which the builder encodes as the encoder does. -/
def Build (sdk : SDK) (key value : String) : Except Err Expression :=
  match sdk.buildErr key value with
  | some err => .error err
  | none =>
    .ok { Names := [("#0", key)], Values := [(":0", encodeString value)],
          KeyCondition := ("#0", ":0") }

/-! ## The storage service -/

/-- The `dynamodb.PutItemInput` fields the source sets. -/
structure PutItemInput where
  TableName : String
  Item : AttrMap
  deriving DecidableEq, Repr

/-- The `dynamodb.DeleteItemInput` fields the source sets. -/
structure DeleteItemInput where
  TableName : String
  Key : AttrMap
  deriving DecidableEq, Repr

/-- The `dynamodb.QueryInput` fields the source sets. -/
structure QueryInput where
  ExpressionAttributeValues : AttrMap
  ExpressionAttributeNames : List (String × String)
  KeyConditionExpression : String × String
  TableName : String
  deriving DecidableEq, Repr

/-- The `dynamodb.QueryOutput` fields that matter here: the items of this
response, and the key after which a further response would go on, present when
the service cut the result to a page. -/
structure QueryOutput where
  Items : List AttrMap
  LastEvaluatedKey : Option AttrMap
  deriving DecidableEq, Repr

/-- A request received by the storage service. -/
inductive Request where
  | PutItem (input : PutItemInput)
  | DeleteItem (input : DeleteItemInput)
  | Query (input : QueryInput)
  deriving DecidableEq, Repr

/-- Modelled from the spec: a stored record of the table of the storage
service.  The table's key schema is the one of the data model: partition key
`newsletter` and sort key `email`, both strings; the other attributes of the
item are kept as they were put. -/
structure Record where
  newsletter : String
  email : String
  rest : AttrMap
  deriving DecidableEq, Repr

/-- The key of a stored record, as an attribute map. -/
def Record.key (r : Record) : AttrMap :=
  [("newsletter", .S r.newsletter), ("email", .S r.email)]

/-- The item a stored record is returned as. -/
def Record.toItem (r : Record) : AttrMap :=
  ("newsletter", .S r.newsletter) :: ("email", .S r.email) :: r.rest

/-- The stored record of an item that satisfies the key schema. -/
def Record.ofItem (i : AttrMap) : Option Record :=
  match i.get "newsletter", i.get "email" with
  | some (.S n), some (.S e) =>
    some { newsletter := n, email := e,
           rest := i.filter (fun p => decide (p.1 ≠ "newsletter" ∧ p.1 ≠ "email")) }
  | _, _ => none

/-- Whether a record is the one a request key names. -/
def Record.hasKey (k : AttrMap) (r : Record) : Bool :=
  decide (k.get "newsletter" = some (.S r.newsletter) ∧ k.get "email" = some (.S r.email))

/-- The order of key strings: character by character, by code point. -/
def ltChars : List Char → List Char → Bool
  | [], [] => false
  | [], _ :: _ => true
  | _ :: _, [] => false
  | a :: as, b :: bs =>
    if a.toNat < b.toNat then true
    else if b.toNat < a.toNat then false
    else ltChars as bs

/-- Whether a record comes before another in the order the service keeps and
returns records: by partition key, then by sort key. -/
def Record.before (r r2 : Record) : Bool :=
  ltChars r.newsletter.data r2.newsletter.data ||
    (decide (r.newsletter = r2.newsletter) && ltChars r.email.data r2.email.data)

/-- A record put at its place in the order of the table: after the leading
records that come before it. -/
def place (r : Record) (t : List Record) : List Record :=
  t.takeWhile (fun x => x.before r) ++ r :: t.dropWhile (fun x => x.before r)

/-- The part of a query result one response carries: all of it when the service
sets no limit (`none`), its first `k + 1` items when the page of the service
ends there (`some k`). -/
def cut (page : Option Nat) (found : List Record) : List Record :=
  match page with
  | none => found
  | some k => found.take (k + 1)

/-- The `LastEvaluatedKey` of a response: the key of its last item when the
result goes on after the page, none otherwise. -/
def lastKey (page : Option Nat) (found : List Record) : Option AttrMap :=
  match page with
  | none => none
  | some k => if k + 1 < found.length then (found.get? k).map Record.key else none

/-- Modelled from the spec: the state of the storage service, namely the
records of the table the store is bound to, in the order the service returns
them, and the requests received so far, latest first. -/
structure Backend where
  table : List Record
  log : List Request
  deriving DecidableEq, Repr

/-- The error of the service for a request that violates the key schema. -/
def ValidationException : Err := "ValidationException"

/-- Modelled from the spec: `PutItemRequest(input).Send(ctx)`, put-item by full
attribute map with overwrite semantics.  `fault` is the failure of the request
(network, throttling, permission), if there is one; a failed request changes no
record. -/
def PutItemRequest.Send (fault : Option Err) (b : Backend) (input : PutItemInput) :
    Option Err × Backend :=
  let b1 : Backend := { b with log := .PutItem input :: b.log }
  match fault with
  | some err => (some err, b1)
  | none =>
    match Record.ofItem input.Item with
    | none => (some ValidationException, b1)
    | some r =>
      (none, { b1 with
        table := place r (b.table.filter (fun r' => !(r'.hasKey input.Item))) })

/-- Modelled from the spec: `DeleteItemRequest(input).Send(ctx)`, delete-item
by composite key; deleting an absent key is a success that changes nothing. -/
def DeleteItemRequest.Send (fault : Option Err) (b : Backend) (input : DeleteItemInput) :
    Option Err × Backend :=
  let b1 : Backend := { b with log := .DeleteItem input :: b.log }
  match fault with
  | some err => (some err, b1)
  | none => (none, { b1 with table := b.table.filter (fun r => !(r.hasKey input.Key)) })

/-- Modelled from the spec: `QueryRequest(input).Send(ctx)`, query by equality
on the attribute the key condition names.  The records that match are returned
in table order; one response carries the page `page` of them and says in
`LastEvaluatedKey` whether the result goes on. -/
def QueryRequest.Send (fault : Option Err) (page : Option Nat) (b : Backend)
    (input : QueryInput) : Except Err QueryOutput × Backend :=
  let b1 : Backend := { b with log := .Query input :: b.log }
  match fault with
  | some err => (.error err, b1)
  | none =>
    match input.ExpressionAttributeNames.lookup input.KeyConditionExpression.1,
          input.ExpressionAttributeValues.get input.KeyConditionExpression.2 with
    | some attr, some v =>
      (.ok { Items := (cut page (b.table.filter
                (fun r => decide (r.toItem.get attr = some v)))).map Record.toItem,
             LastEvaluatedKey := lastKey page (b.table.filter
                (fun r => decide (r.toItem.get attr = some v))) }, b1)
    | _, _ => (.error ValidationException, b1)

/-! ## The three operations of `news.go` -/

/-- Go `Store.AddSubscriber`: encode the record with the current time `now`,
return the encoding error if there is one, else send one put request and return
its error. -/
def Store.AddSubscriber (sdk : SDK) (s : Store) (now : Time) (fault : Option Err)
    (b : Backend) (newsletter email : String) : Option Err × Backend :=
  match MarshalMap sdk { Newsletter := newsletter, Email := email, CreatedAt := now } with
  | .error err => (some err, b)
  | .ok i => PutItemRequest.Send fault b { TableName := s.TableName, Item := i }

/-- Go `Store.RemoveSubscriber`: send one delete request for the key
`newsletter`, `email` and return its error. -/
def Store.RemoveSubscriber (s : Store) (fault : Option Err) (b : Backend)
    (newsletter email : String) : Option Err × Backend :=
  DeleteItemRequest.Send fault b
    { TableName := s.TableName,
      Key := [("newsletter", .S newsletter), ("email", .S email)] }

/-- The loop `for _, v := range results { emails = append(emails, v.Email) }`
of `GetSubscribers`, starting from the nil slice. -/
def collectEmails (results : List item) : List String :=
  results.foldl (fun emails v => emails ++ [v.Email]) []

/-- Lines 87 to 98 of `GetSubscribers`: what the function returns for the items
of a response, whatever they are: decode them and collect the emails, or return
the decoding error with the nil slice. -/
def emailsOf (sdk : SDK) (items : List AttrMap) : List String × Option Err :=
  match UnmarshalListOfMaps sdk items with
  | .error err => ([], some err)
  | .ok results => (collectEmails results, none)

/-- Go `Store.GetSubscribers`, returning `(emails, err)` and the state of the
service: build the key condition, send one query, and from its one response
read `Items` only, decode them and collect the emails.  On each of the three
error returns `emails` is still the nil slice. -/
def Store.GetSubscribers (sdk : SDK) (s : Store) (fault : Option Err) (page : Option Nat)
    (b : Backend) (newsletter : String) : (List String × Option Err) × Backend :=
  match Build sdk "newsletter" newsletter with
  | .error err => (([], some err), b)
  | .ok expr =>
    match QueryRequest.Send fault page b
        { ExpressionAttributeValues := expr.Values,
          ExpressionAttributeNames := expr.Names,
          KeyConditionExpression := expr.KeyCondition,
          TableName := s.TableName } with
    | (.error err, b1) => (([], some err), b1)
    | (.ok result, b1) => (emailsOf sdk result.Items, b1)

/-! ## Derived notions used in the lemmas -/

/-- The records of the table in partition `n`, in table order. -/
def Backend.partition (b : Backend) (n : String) : List Record :=
  b.table.filter (fun r => decide (r.newsletter = n))

/-- The records that match the query of `GetSubscribers(n)`. -/
def Backend.matching (b : Backend) (n : String) : List Record :=
  b.table.filter (fun r => decide (r.toItem.get "newsletter" = some (encodeString n)))

/-- Whether one response with page `page` carries every record that matches the
query of `GetSubscribers(n)`, that is, comes without `LastEvaluatedKey`. -/
def Backend.complete (b : Backend) (page : Option Nat) (n : String) : Bool :=
  match page with
  | none => true
  | some k => decide ((b.matching n).length ≤ k + 1)

/-- The query input `GetSubscribers` builds for newsletter `n`. -/
def queryInput (s : Store) (n : String) : QueryInput :=
  { ExpressionAttributeValues := [(":0", encodeString n)],
    ExpressionAttributeNames := [("#0", "newsletter")],
    KeyConditionExpression := ("#0", ":0"),
    TableName := s.TableName }

/-- The put input `AddSubscriber` builds for `(n, e)` at time `now`. -/
def putInput (sdk : SDK) (s : Store) (now : Time) (n e : String) : PutItemInput :=
  { TableName := s.TableName,
    Item := [("newsletter", encodeString n), ("email", encodeString e),
             ("created_at", sdk.encodeTime now)] }

/-- The delete input `RemoveSubscriber` builds for `(n, e)`. -/
def deleteInput (s : Store) (n e : String) : DeleteItemInput :=
  { TableName := s.TableName, Key := [("newsletter", .S n), ("email", .S e)] }

/-- The record `AddSubscriber` writes for `(n, e)` at time `now`. -/
def written (sdk : SDK) (now : Time) (n e : String) : Record :=
  { newsletter := n, email := e, rest := [("created_at", sdk.encodeTime now)] }

/-- The table without its records of key `(n, e)`. -/
def without (t : List Record) (n e : String) : List Record :=
  t.filter (fun r => !decide (r.newsletter = n ∧ r.email = e))

/-! ## Concrete values used in the examples -/

/-- The number a list of decimal digits writes, if they are all digits. -/
def parseDigits (cs : List Char) : Option Nat :=
  cs.foldl (fun acc c =>
    match acc with
    | none => none
    | some k => if c.isDigit then some (10 * k + (c.toNat - 48)) else none) (some 0)

/-- The count a decimal text writes, with an optional leading minus sign. -/
def parseCount (text : String) : Option Int :=
  match text.data with
  | [] => none
  | '-' :: cs => if cs.isEmpty then none else (parseDigits cs).map (fun k => - (k : Int))
  | cs => (parseDigits cs).map Int.ofNat

/-- An SDK that reports no encoding or building error and writes a time as
the decimal text of its count, which decoding reads back. -/
def sdk0 : SDK where
  marshalErr := fun _ => none
  encodeTime := fun t => .S (toString t)
  buildErr := fun _ _ => none
  decodeTime := fun a =>
    match a with
    | some (.S text) =>
      match parseCount text with
      | some t => .ok t
      | none => .error "parsing time"
    | none => .ok 0
    | some .NULL => .ok 0
    | _ => .error "UnmarshalTypeError"

/-- An SDK whose encoder rejects every record. -/
def sdkFailing : SDK :=
  { sdk0 with marshalErr := fun _ => some "MarshalError" }

/-- The service holding `a@x.com` as the one subscriber of `digest`. -/
def oneSubscriber : Backend :=
  { table := [{ newsletter := "digest", email := "a@x.com",
                rest := [("created_at", .S "5")] }],
    log := [] }

/-- The service holding `a@x.com` and `b@x.com` as subscribers of `digest`. -/
def twoSubscribers : Backend :=
  { table := [{ newsletter := "digest", email := "a@x.com",
                rest := [("created_at", .S "5")] },
              { newsletter := "digest", email := "b@x.com",
                rest := [("created_at", .S "6")] }],
    log := [] }

/-- The service holding `a@x.com`, `b@x.com` and `c@x.com` as subscribers of
`digest`. -/
def threeSubscribers : Backend :=
  { table := [{ newsletter := "digest", email := "a@x.com",
                rest := [("created_at", .S "5")] },
              { newsletter := "digest", email := "b@x.com",
                rest := [("created_at", .S "6")] },
              { newsletter := "digest", email := "c@x.com",
                rest := [("created_at", .S "7")] }],
    log := [] }

/-- A store bound to the table `news`. -/
def store0 : Store := { TableName := "news" }

/-- The service with an empty table and no request received. -/
def emptyBackend : Backend := { table := [], log := [] }

/-! ## Lemmas on the model -/

theorem collectEmails_aux (results : List item) (acc : List String) :
    results.foldl (fun emails v => emails ++ [v.Email]) acc = acc ++ results.map item.Email := by
  induction results generalizing acc with
  | nil => simp
  | cons v vs ih => simp [List.foldl, ih]

theorem collectEmails_eq_map (results : List item) :
    collectEmails results = results.map item.Email := by
  simp [collectEmails, collectEmails_aux]

theorem encodeString_of_ne (x : String) (h : x ≠ "") : encodeString x = .S x := by
  simp [encodeString, h]

theorem encodeString_empty : encodeString "" = .NULL := by
  simp [encodeString]

theorem encodeString_eq_S (x y : String) : encodeString x = .S y ↔ x ≠ "" ∧ x = y := by
  unfold encodeString
  by_cases h : x = ""
  · simp [h]
  · simp [h]

theorem hasKey_pair (n e : String) (tail : AttrMap) (r : Record) :
    Record.hasKey (("newsletter", .S n) :: ("email", .S e) :: tail) r
      = decide (r.newsletter = n ∧ r.email = e) := by
  have h1 : (n = r.newsletter) = (r.newsletter = n) := propext eq_comm
  have h2 : (e = r.email) = (r.email = e) := propext eq_comm
  simp [Record.hasKey, AttrMap.get, h1, h2]

theorem ofItem_marshalled (n e : String) (a : AttributeValue) :
    Record.ofItem [("newsletter", .S n), ("email", .S e), ("created_at", a)]
      = some { newsletter := n, email := e, rest := [("created_at", a)] } := by
  simp [Record.ofItem, AttrMap.get, List.filter]

theorem ofItem_null_newsletter (v a : AttributeValue) :
    Record.ofItem [("newsletter", .NULL), ("email", v), ("created_at", a)] = none := by
  simp [Record.ofItem, AttrMap.get]

theorem ofItem_null_email (v a : AttributeValue) :
    Record.ofItem [("newsletter", v), ("email", .NULL), ("created_at", a)] = none := by
  cases v <;> simp [Record.ofItem, AttrMap.get]

theorem unmarshal_toItem (sdk : SDK) (r : Record) :
    UnmarshalMap sdk r.toItem =
      match sdk.decodeTime (r.rest.get "created_at") with
      | .error err => .error err
      | .ok t => .ok { Newsletter := r.newsletter, Email := r.email, CreatedAt := t } := by
  simp [UnmarshalMap, Record.toItem, AttrMap.get, decodeString, item.tagNewsletter,
    item.tagEmail, item.tagCreatedAt]

theorem unmarshalMap_email (sdk : SDK) (m : AttrMap) (v : item)
    (h : UnmarshalMap sdk m = .ok v) : decodeString (m.get "email") = .ok v.Email := by
  unfold UnmarshalMap at h
  cases hn : decodeString (m.get item.tagNewsletter) with
  | error err => simp [hn] at h
  | ok n =>
    cases he : decodeString (m.get item.tagEmail) with
    | error err => simp [hn, he] at h
    | ok e =>
      cases ht : sdk.decodeTime (m.get item.tagCreatedAt) with
      | error err => simp [hn, he, ht] at h
      | ok t =>
        simp only [hn, he, ht] at h
        injection h with h
        subst h
        rfl

/-- Decoding any list of items gives one result per item, in order, whose
`Email` is the decoded `email` attribute of its item. -/
theorem unmarshalList_fields (sdk : SDK) (items : List AttrMap) (results : List item)
    (h : UnmarshalListOfMaps sdk items = .ok results) :
    results.length = items.length ∧
    items.map (fun m => decodeString (m.get "email"))
      = (results.map item.Email).map Except.ok := by
  induction items generalizing results with
  | nil =>
    simp [UnmarshalListOfMaps] at h
    subst h
    exact ⟨rfl, rfl⟩
  | cons m ms ih =>
    simp only [UnmarshalListOfMaps] at h
    cases hm : UnmarshalMap sdk m with
    | error err => simp [hm] at h
    | ok v =>
      cases hrest : UnmarshalListOfMaps sdk ms with
      | error err => simp [hm, hrest] at h
      | ok vs =>
        simp only [hm, hrest] at h
        injection h with h
        subst h
        have hi := ih vs hrest
        refine ⟨by simp [hi.1], ?_⟩
        simp only [List.map_cons, hi.2, unmarshalMap_email sdk m v hm]

theorem unmarshalList_emails (sdk : SDK) (rs : List Record) (results : List item)
    (h : UnmarshalListOfMaps sdk (rs.map Record.toItem) = .ok results) :
    results.map item.Email = rs.map Record.email := by
  induction rs generalizing results with
  | nil =>
    simp [UnmarshalListOfMaps] at h
    subst h; rfl
  | cons r rs ih =>
    simp only [List.map, UnmarshalListOfMaps, unmarshal_toItem] at h
    cases ht : sdk.decodeTime (r.rest.get "created_at") with
    | error err => simp [ht] at h
    | ok t =>
      simp only [ht] at h
      cases hrest : UnmarshalListOfMaps sdk (rs.map Record.toItem) with
      | error err => simp [hrest] at h
      | ok vs =>
        simp only [hrest] at h
        injection h with h
        subst h
        simp [ih vs hrest]

theorem unmarshalList_ok_iff (sdk : SDK) (rs : List Record) :
    (∃ results, UnmarshalListOfMaps sdk (rs.map Record.toItem) = .ok results) ↔
      ∀ r ∈ rs, ∃ t, sdk.decodeTime (r.rest.get "created_at") = .ok t := by
  induction rs with
  | nil => simp [UnmarshalListOfMaps]
  | cons r rs ih =>
    simp only [List.map, UnmarshalListOfMaps, unmarshal_toItem, List.mem_cons, forall_eq_or_imp]
    rw [← ih]
    cases ht : sdk.decodeTime (r.rest.get "created_at") with
    | error err => simp
    | ok t =>
      cases hrest : UnmarshalListOfMaps sdk (rs.map Record.toItem) with
      | error err => simp
      | ok vs => simp

theorem emailsOf_ok (sdk : SDK) (rs : List Record)
    (h : (emailsOf sdk (rs.map Record.toItem)).2 = none) :
    (emailsOf sdk (rs.map Record.toItem)).1 = rs.map Record.email := by
  unfold emailsOf at h ⊢
  cases hu : UnmarshalListOfMaps sdk (rs.map Record.toItem) with
  | error err => simp [hu] at h
  | ok results => simp [collectEmails_eq_map, unmarshalList_emails sdk _ _ hu]

theorem emailsOf_cases (sdk : SDK) (rs : List Record) :
    (emailsOf sdk (rs.map Record.toItem)).1 = [] ∨
      (emailsOf sdk (rs.map Record.toItem)).1 = rs.map Record.email := by
  unfold emailsOf
  cases hu : UnmarshalListOfMaps sdk (rs.map Record.toItem) with
  | error err => left; rfl
  | ok results => right; simp [collectEmails_eq_map, unmarshalList_emails sdk _ _ hu]

theorem emailsOf_ok_iff (sdk : SDK) (rs : List Record) :
    (emailsOf sdk (rs.map Record.toItem)).2 = none ↔
      ∀ r ∈ rs, ∃ t, sdk.decodeTime (r.rest.get "created_at") = .ok t := by
  rw [← unmarshalList_ok_iff]
  unfold emailsOf
  cases hu : UnmarshalListOfMaps sdk (rs.map Record.toItem) with
  | error err => simp
  | ok results => simp

theorem matching_of_ne (b : Backend) (n : String) (h : n ≠ "") :
    b.matching n = b.partition n := by
  unfold Backend.matching Backend.partition
  congr 1
  funext r
  have h2 : (n = r.newsletter) = (r.newsletter = n) := propext eq_comm
  simp [Record.toItem, AttrMap.get, encodeString_of_ne n h, h2]

theorem matching_empty (b : Backend) : b.matching "" = [] := by
  unfold Backend.matching
  rw [List.filter_eq_nil_iff]
  intro r _
  simp [Record.toItem, AttrMap.get, encodeString_empty]

theorem matching_eq (b : Backend) (n : String) :
    b.matching n = if n = "" then [] else b.partition n := by
  by_cases h : n = ""
  · subst h; simp [matching_empty]
  · simp [h, matching_of_ne b n h]

theorem mem_matching (b : Backend) (n : String) (r : Record) (h : r ∈ b.matching n) :
    r ∈ b.table ∧ r.newsletter = n := by
  rw [matching_eq] at h
  by_cases hn : n = ""
  · simp [hn] at h
  · simp only [hn, if_false, Backend.partition, List.mem_filter, decide_eq_true_eq] at h
    exact h

theorem mem_cut (page : Option Nat) (l : List Record) (r : Record) (h : r ∈ cut page l) :
    r ∈ l := by
  cases page with
  | none => exact h
  | some k => exact List.mem_of_mem_take h

theorem cut_of_complete (b : Backend) (page : Option Nat) (n : String)
    (h : b.complete page n = true) : cut page (b.matching n) = b.matching n := by
  cases page with
  | none => rfl
  | some k =>
    simp only [Backend.complete, decide_eq_true_eq] at h
    exact List.take_of_length_le h

theorem lastKey_eq_none_iff (b : Backend) (page : Option Nat) (n : String) :
    lastKey page (b.matching n) = none ↔ b.complete page n = true := by
  cases page with
  | none => simp [lastKey, Backend.complete]
  | some k =>
    simp only [lastKey, Backend.complete, decide_eq_true_eq]
    by_cases h : k + 1 < (b.matching n).length
    · have hk : k < (b.matching n).length := by omega
      simp only [h, if_true]
      constructor
      · intro h2
        rw [Option.map_eq_none', List.get?_eq_none] at h2
        omega
      · intro h2; omega
    · simp only [h, if_false, true_iff]
      omega

/-- The query `GetSubscribers` sends, when it is served, returns the page of
the matching records. -/
theorem query_send_eq (s : Store) (page : Option Nat) (b : Backend) (n : String) :
    QueryRequest.Send none page b (queryInput s n)
      = (.ok { Items := (cut page (b.matching n)).map Record.toItem,
               LastEvaluatedKey := lastKey page (b.matching n) },
         { b with log := .Query (queryInput s n) :: b.log }) := by
  rfl

/-- The result of `GetSubscribers`, case by case. -/
theorem getSubscribers_eq (sdk : SDK) (s : Store) (fault : Option Err) (page : Option Nat)
    (b : Backend) (n : String) :
    (s.GetSubscribers sdk fault page b n).1 =
      match sdk.buildErr "newsletter" n with
      | some err => ([], some err)
      | none =>
        match fault with
        | some err => ([], some err)
        | none => emailsOf sdk ((cut page (b.matching n)).map Record.toItem) := by
  unfold Store.GetSubscribers Build
  cases hb : sdk.buildErr "newsletter" n with
  | some err => rfl
  | none =>
    cases fault with
    | some err => rfl
    | none =>
      have hq := query_send_eq s page b n
      unfold queryInput at hq
      simp only [hq]

theorem getSubscribers_backend (sdk : SDK) (s : Store) (fault : Option Err)
    (page : Option Nat) (b : Backend) (n : String) (hb : sdk.buildErr "newsletter" n = none) :
    (s.GetSubscribers sdk fault page b n).2
      = { b with log := .Query (queryInput s n) :: b.log } := by
  unfold Store.GetSubscribers Build
  rw [hb]
  cases fault with
  | some err => rfl
  | none =>
    have hq := query_send_eq s page b n
    unfold queryInput at hq
    simp only [hq]
    rfl

theorem getSubscribers_ok (sdk : SDK) (s : Store) (fault : Option Err) (page : Option Nat)
    (b : Backend) (n : String) (h : (s.GetSubscribers sdk fault page b n).1.2 = none) :
    (s.GetSubscribers sdk fault page b n).1.1 = (cut page (b.matching n)).map Record.email := by
  rw [getSubscribers_eq] at h ⊢
  cases hb : sdk.buildErr "newsletter" n with
  | some err => simp [hb] at h
  | none =>
    cases fault with
    | some err => simp [hb] at h
    | none =>
      simp only [hb] at h ⊢
      exact emailsOf_ok sdk _ h

theorem getSubscribers_cases (sdk : SDK) (s : Store) (fault : Option Err) (page : Option Nat)
    (b : Backend) (n : String) :
    (s.GetSubscribers sdk fault page b n).1.1 = [] ∨
      (s.GetSubscribers sdk fault page b n).1.1
        = (cut page (b.matching n)).map Record.email := by
  rw [getSubscribers_eq]
  cases hb : sdk.buildErr "newsletter" n with
  | some err => left; rfl
  | none =>
    cases fault with
    | some err => left; rfl
    | none => exact emailsOf_cases sdk _

theorem getSubscribers_ok_iff (sdk : SDK) (s : Store) (fault : Option Err)
    (page : Option Nat) (b : Backend) (n : String) :
    (s.GetSubscribers sdk fault page b n).1.2 = none ↔
      sdk.buildErr "newsletter" n = none ∧ fault = none ∧
      ∀ r ∈ cut page (b.matching n), ∃ t, sdk.decodeTime (r.rest.get "created_at") = .ok t := by
  rw [getSubscribers_eq, ← emailsOf_ok_iff]
  cases hb : sdk.buildErr "newsletter" n with
  | some err => simp
  | none =>
    cases fault with
    | some err => simp
    | none => simp

theorem getSubscribers_congr (sdk : SDK) (s : Store) (fault : Option Err) (page : Option Nat)
    (b b2 : Backend) (n : String) (h : b2.matching n = b.matching n) :
    (s.GetSubscribers sdk fault page b2 n).1 = (s.GetSubscribers sdk fault page b n).1 := by
  rw [getSubscribers_eq, getSubscribers_eq, h]

theorem filter_place_neg (p : Record → Bool) (r : Record) (t : List Record)
    (h : p r = false) : (place r t).filter p = t.filter p := by
  unfold place
  rw [List.filter_append, List.filter_cons_of_neg (by simp [h]), ← List.filter_append,
    List.takeWhile_append_dropWhile]

theorem filter_place_pos (p : Record → Bool) (r : Record) (t : List Record)
    (h : p r = true) :
    ∃ l1 l2, (place r t).filter p = l1 ++ r :: l2 ∧ t.filter p = l1 ++ l2 := by
  refine ⟨(t.takeWhile (fun x => x.before r)).filter p,
    (t.dropWhile (fun x => x.before r)).filter p, ?_, ?_⟩
  · unfold place
    rw [List.filter_append, List.filter_cons_of_pos h]
  · rw [← List.filter_append, List.takeWhile_append_dropWhile]

theorem mem_without (t : List Record) (n e : String) (r : Record) :
    r ∈ without t n e ↔ r ∈ t ∧ ¬ (r.newsletter = n ∧ r.email = e) := by
  simp only [without, List.mem_filter, Bool.not_eq_true', decide_eq_false_iff_not]

theorem without_eq_self (t : List Record) (n e : String)
    (h : ∀ r ∈ t, ¬ (r.newsletter = n ∧ r.email = e)) : without t n e = t := by
  unfold without
  rw [List.filter_eq_self]
  intro r hr
  simp only [Bool.not_eq_true', decide_eq_false_iff_not]
  exact h r hr

theorem without_idem (t : List Record) (n e : String) :
    without (without t n e) n e = without t n e := by
  apply without_eq_self
  intro r hr
  exact ((mem_without t n e r).mp hr).2

theorem without_place (sdk : SDK) (now : Time) (t : List Record) (n e : String) :
    without (place (written sdk now n e) (without t n e)) n e = without t n e := by
  have h : without (place (written sdk now n e) (without t n e)) n e
      = without (without t n e) n e := by
    unfold without
    exact filter_place_neg _ _ _ (by simp [written])
  rw [h, without_idem]

theorem filter_key_without (t : List Record) (n e : String) :
    (without t n e).filter (fun r => decide (r.newsletter = n ∧ r.email = e)) = [] := by
  rw [List.filter_eq_nil_iff]
  intro r hr
  simpa using fun h1 h2 => ((mem_without t n e r).mp hr).2 ⟨h1, h2⟩

/-- No record of partition `n` that survives the removal of `(n, e)` has email `e`. -/
theorem email_ne_of_without (t : List Record) (n e : String) (r : Record)
    (hr : r ∈ (without t n e).filter (fun r => decide (r.newsletter = n))) : r.email ≠ e := by
  rw [List.mem_filter] at hr
  have h1 := ((mem_without t n e r).mp hr.1).2
  have h2 : r.newsletter = n := by simpa using hr.2
  intro he
  exact h1 ⟨h2, he⟩

theorem not_mem_emails_without (t : List Record) (n e : String) :
    e ∉ ((without t n e).filter (fun r => decide (r.newsletter = n))).map Record.email := by
  intro hmem
  rcases List.mem_map.mp hmem with ⟨r, hr, he⟩
  exact email_ne_of_without t n e r hr he

theorem partition_without_ne (t : List Record) (n e n2 : String) (h : n2 ≠ n) :
    (without t n e).filter (fun r => decide (r.newsletter = n2))
      = t.filter (fun r => decide (r.newsletter = n2)) := by
  unfold without
  rw [List.filter_filter]
  apply List.filter_congr
  intro r _
  by_cases h2 : r.newsletter = n2
  · have h3 : r.newsletter ≠ n := fun h4 => h (h2.symm.trans h4)
    simp [h2, h3, h]
  · simp [h2]

theorem emails_without (t : List Record) (n e : String) :
    ((without t n e).filter (fun r => decide (r.newsletter = n))).map Record.email
      = ((t.filter (fun r => decide (r.newsletter = n))).map Record.email).filter
          (fun x => decide (x ≠ e)) := by
  unfold without
  rw [List.filter_map, List.filter_filter, List.filter_filter]
  congr 1
  apply List.filter_congr
  intro r _
  by_cases h1 : r.newsletter = n <;> by_cases h2 : r.email = e <;> simp [h1, h2]

theorem partition_eq_nil (b : Backend) (n : String) (h : ∀ r ∈ b.table, r.newsletter ≠ n) :
    b.partition n = [] := by
  rw [Backend.partition, List.filter_eq_nil_iff]
  intro r hr
  simpa using h r hr

/-- The result of `AddSubscriber`, case by case. -/
theorem addSubscriber_eq (sdk : SDK) (s : Store) (now : Time) (fault : Option Err)
    (b : Backend) (n e : String) :
    s.AddSubscriber sdk now fault b n e =
      match sdk.marshalErr { Newsletter := n, Email := e, CreatedAt := now } with
      | some err => (some err, b)
      | none =>
        match fault with
        | some err => (some err, { b with log := .PutItem (putInput sdk s now n e) :: b.log })
        | none =>
          if n ≠ "" ∧ e ≠ "" then
            (none, { table := place (written sdk now n e) (without b.table n e),
                     log := .PutItem (putInput sdk s now n e) :: b.log })
          else
            (some ValidationException,
              { b with log := .PutItem (putInput sdk s now n e) :: b.log }) := by
  unfold Store.AddSubscriber MarshalMap
  cases hm : sdk.marshalErr { Newsletter := n, Email := e, CreatedAt := now } with
  | some err => rfl
  | none =>
    cases fault with
    | some err => rfl
    | none =>
      by_cases hn : n = ""
      · subst hn
        simp [PutItemRequest.Send, encodeString_empty, ofItem_null_newsletter, putInput]
      · by_cases he : e = ""
        · subst he
          simp [PutItemRequest.Send, encodeString_empty, ofItem_null_email, putInput]
        · simp only [PutItemRequest.Send, encodeString_of_ne n hn, encodeString_of_ne e he,
            ofItem_marshalled, written, without, hasKey_pair, putInput]
          simp [hn, he]

/-- The result of `RemoveSubscriber`, case by case. -/
theorem removeSubscriber_eq (s : Store) (fault : Option Err) (b : Backend) (n e : String) :
    s.RemoveSubscriber fault b n e =
      match fault with
      | some err => (some err, { b with log := .DeleteItem (deleteInput s n e) :: b.log })
      | none =>
        (none, { table := without b.table n e,
                 log := .DeleteItem (deleteInput s n e) :: b.log }) := by
  unfold Store.RemoveSubscriber
  cases fault with
  | some err => rfl
  | none =>
    simp only [DeleteItemRequest.Send, without, hasKey_pair, deleteInput]

theorem addSubscriber_of_ok (sdk : SDK) (s : Store) (now : Time) (fault : Option Err)
    (b : Backend) (n e : String) (h : (s.AddSubscriber sdk now fault b n e).1 = none) :
    n ≠ "" ∧ e ≠ "" ∧
    (s.AddSubscriber sdk now fault b n e).2.table
      = place (written sdk now n e) (without b.table n e) := by
  rw [addSubscriber_eq] at h ⊢
  cases hm : sdk.marshalErr { Newsletter := n, Email := e, CreatedAt := now } with
  | some err => simp [hm] at h
  | none =>
    cases fault with
    | some err => simp [hm] at h
    | none =>
      by_cases hne : n ≠ "" ∧ e ≠ ""
      · rw [if_pos hne]
        exact ⟨hne.1, hne.2, rfl⟩
      · rw [if_neg hne] at h
        simp [hm] at h

theorem addSubscriber_table_cases (sdk : SDK) (s : Store) (now : Time) (fault : Option Err)
    (b : Backend) (n e : String) :
    (s.AddSubscriber sdk now fault b n e).2.table = b.table ∨
    (s.AddSubscriber sdk now fault b n e).2.table
      = place (written sdk now n e) (without b.table n e) := by
  rw [addSubscriber_eq]
  cases hm : sdk.marshalErr { Newsletter := n, Email := e, CreatedAt := now } with
  | some err => left; rfl
  | none =>
    cases fault with
    | some err => left; rfl
    | none =>
      by_cases hne : n ≠ "" ∧ e ≠ ""
      · right; rw [if_pos hne]
      · left; rw [if_neg hne]

theorem addSubscriber_log (sdk : SDK) (s : Store) (now : Time) (fault : Option Err)
    (b : Backend) (n e : String)
    (hm : sdk.marshalErr { Newsletter := n, Email := e, CreatedAt := now } = none) :
    (s.AddSubscriber sdk now fault b n e).2.log
      = .PutItem (putInput sdk s now n e) :: b.log := by
  rw [addSubscriber_eq, hm]
  cases fault with
  | some err => rfl
  | none =>
    by_cases hne : n ≠ "" ∧ e ≠ ""
    · rw [if_pos hne]
    · rw [if_neg hne]

theorem removeSubscriber_table_of_ok (s : Store) (fault : Option Err) (b : Backend)
    (n e : String) (h : (s.RemoveSubscriber fault b n e).1 = none) :
    (s.RemoveSubscriber fault b n e).2.table = without b.table n e := by
  rw [removeSubscriber_eq] at h ⊢
  cases fault with
  | some err => simp at h
  | none => rfl

theorem removeSubscriber_table_cases (s : Store) (fault : Option Err) (b : Backend)
    (n e : String) :
    (s.RemoveSubscriber fault b n e).2.table = b.table ∨
    (s.RemoveSubscriber fault b n e).2.table = without b.table n e := by
  rw [removeSubscriber_eq]
  cases fault with
  | some err => left; rfl
  | none => right; rfl

theorem matching_length_without (b b2 : Backend) (n e : String)
    (h : b2.table = without b.table n e) :
    (b2.matching n).length ≤ (b.matching n).length := by
  unfold Backend.matching
  rw [h]
  unfold without
  exact (List.Sublist.filter _ (List.filter_sublist _)).length_le

theorem matching_without (b b2 : Backend) (n e : String)
    (h : b2.table = without b.table n e) :
    (b2.matching n).map Record.email
      = ((b.matching n).map Record.email).filter (fun x => decide (x ≠ e)) := by
  rw [matching_eq, matching_eq]
  by_cases hn : n = ""
  · simp [hn]
  · simp only [hn, if_false, Backend.partition, h, emails_without]

/-- Whether the response of a served query of `GetSubscribers(n)` comes without
`LastEvaluatedKey` is what `Backend.complete` says. -/
theorem complete_iff_no_lastEvaluatedKey (s : Store) (page : Option Nat) (b : Backend)
    (n : String) (out : QueryOutput)
    (h : (QueryRequest.Send none page b (queryInput s n)).1 = .ok out) :
    out.LastEvaluatedKey = none ↔ b.complete page n = true := by
  rw [query_send_eq] at h
  injection h with h
  subst h
  exact lastKey_eq_none_iff b page n

theorem mem_place (r x : Record) (t : List Record) : x ∈ place r t ↔ x = r ∨ x ∈ t := by
  have h : x ∈ t ↔ x ∈ t.takeWhile (fun y => y.before r) ++ t.dropWhile (fun y => y.before r) := by
    rw [List.takeWhile_append_dropWhile]
  rw [h]
  unfold place
  simp only [List.mem_append, List.mem_cons]
  tauto

theorem cut_sublist (page : Option Nat) (l : List Record) : (cut page l).Sublist l := by
  cases page with
  | none => exact List.Sublist.refl l
  | some k => exact List.take_sublist _ _

theorem count_emails_place (sdk : SDK) (now : Time) (t : List Record) (n e : String) :
    (((place (written sdk now n e) (without t n e)).filter
        (fun r => decide (r.newsletter = n))).map Record.email).count e = 1 := by
  obtain ⟨l1, l2, h1, h2⟩ := filter_place_pos (fun r => decide (r.newsletter = n))
    (written sdk now n e) (without t n e) (by simp [written])
  have hnot := not_mem_emails_without t n e
  rw [h2, List.map_append, List.mem_append] at hnot
  have hz1 : (l1.map Record.email).count e = 0 :=
    List.count_eq_zero.mpr (fun h => hnot (Or.inl h))
  have hz2 : (l2.map Record.email).count e = 0 :=
    List.count_eq_zero.mpr (fun h => hnot (Or.inr h))
  rw [h1, List.map_append, List.map_cons, List.count_append]
  simp only [written, List.count_cons_self, hz1, hz2]

theorem mem_matching_without (b b2 : Backend) (n e : String) (r : Record)
    (h : b2.table = without b.table n e) (hr : r ∈ b2.matching n) : r ∈ b.matching n := by
  unfold Backend.matching at hr ⊢
  rw [h, List.mem_filter] at hr
  rw [List.mem_filter]
  exact ⟨((mem_without _ n e r).mp hr.1).1, hr.2⟩

theorem complete_without (b b2 : Backend) (page : Option Nat) (n e : String)
    (h : b2.table = without b.table n e) (hc : b.complete page n = true) :
    b2.complete page n = true := by
  cases page with
  | none => rfl
  | some k =>
    simp only [Backend.complete, decide_eq_true_eq] at hc ⊢
    exact Nat.le_trans (matching_length_without b b2 n e h) hc

theorem matching_ne_of_without (b b2 : Backend) (n e n2 : String) (hne : n2 ≠ n)
    (h : without b2.table n e = without b.table n e) : b2.matching n2 = b.matching n2 := by
  rw [matching_eq, matching_eq]
  by_cases hn : n2 = ""
  · simp [hn]
  · simp only [hn, if_false, Backend.partition]
    rw [← partition_without_ne _ n e n2 hne, h, partition_without_ne _ n e n2 hne]

/-! ## The claims -/

/-- C1, as stated, fails in two ways.  On the empty table
`AddSubscriber("digest", "a@x.com")` returns no error, and a following
`GetSubscribers("digest")` whose query request fails with `RequestError` returns
that error and a list without the email.  On the table holding `a@x.com`,
`AddSubscriber("digest", "b@x.com")` returns no error, and a following
`GetSubscribers("digest")` whose response is cut after one item returns no
error and the list of `a@x.com` alone. -/
theorem add_then_get_not_listed :
    ((store0.AddSubscriber sdk0 5 none emptyBackend "digest" "a@x.com").1 = none ∧
     (store0.GetSubscribers sdk0 (some "RequestError") none
        (store0.AddSubscriber sdk0 5 none emptyBackend "digest" "a@x.com").2 "digest").1
      = ([], some "RequestError")) ∧
    ((store0.AddSubscriber sdk0 6 none oneSubscriber "digest" "b@x.com").1 = none ∧
     (store0.GetSubscribers sdk0 none (some 0)
        (store0.AddSubscriber sdk0 6 none oneSubscriber "digest" "b@x.com").2 "digest").1
      = (["a@x.com"], none)) := by
  decide

/-- C1, amended: for every table state, newsletter `n` and email `e`, if
`AddSubscriber(n, e)` returns no error, then a following `GetSubscribers(n)` on
the resulting table that returns no error, and whose query response carries the
whole result (it is not cut to a page), returns a list that contains `e`. -/
theorem add_then_get_contains (sdk : SDK) (s : Store) (now : Time) (f1 f2 : Option Err)
    (page : Option Nat) (b : Backend) (n e : String)
    (hadd : (s.AddSubscriber sdk now f1 b n e).1 = none)
    (hget : (s.GetSubscribers sdk f2 page (s.AddSubscriber sdk now f1 b n e).2 n).1.2 = none)
    (hfull : (s.AddSubscriber sdk now f1 b n e).2.complete page n = true) :
    e ∈ (s.GetSubscribers sdk f2 page (s.AddSubscriber sdk now f1 b n e).2 n).1.1 := by
  obtain ⟨hn, _, ht⟩ := addSubscriber_of_ok sdk s now f1 b n e hadd
  rw [getSubscribers_ok sdk s f2 page _ n hget, cut_of_complete _ page n hfull,
    matching_of_ne _ n hn, Backend.partition, ht]
  apply List.mem_map.mpr
  refine ⟨written sdk now n e, ?_, rfl⟩
  rw [List.mem_filter]
  refine ⟨?_, by simp [written]⟩
  unfold place
  simp

/-- The amended C1 on the table holding `a@x.com`, adding `b@x.com`, with a
response that carries both. -/
theorem add_then_get_contains_witness :
    (store0.AddSubscriber sdk0 6 none oneSubscriber "digest" "b@x.com").1 = none ∧
    (store0.GetSubscribers sdk0 none (some 1)
        (store0.AddSubscriber sdk0 6 none oneSubscriber "digest" "b@x.com").2 "digest").1.2
      = none ∧
    (store0.AddSubscriber sdk0 6 none oneSubscriber "digest" "b@x.com").2.complete
        (some 1) "digest" = true ∧
    "b@x.com" ∈ (store0.GetSubscribers sdk0 none (some 1)
        (store0.AddSubscriber sdk0 6 none oneSubscriber "digest" "b@x.com").2 "digest").1.1 :=
  ⟨by decide, by decide, by decide,
   add_then_get_contains sdk0 store0 6 none none (some 1) oneSubscriber "digest" "b@x.com"
     (by decide) (by decide) (by decide)⟩

/-- C2: for every table state, newsletter `n` and email `e`, after
`AddSubscriber(n, e)` and then `RemoveSubscriber(n, e)`, both returning no
error, the list a following `GetSubscribers(n)` returns does not contain `e`,
whatever the outcome and the page of its query. -/
theorem add_remove_then_get_lacks (sdk : SDK) (s : Store) (now : Time)
    (f1 f2 f3 : Option Err) (page : Option Nat) (b : Backend) (n e : String)
    (hadd : (s.AddSubscriber sdk now f1 b n e).1 = none)
    (hrem : (s.RemoveSubscriber f2 (s.AddSubscriber sdk now f1 b n e).2 n e).1 = none) :
    e ∉ (s.GetSubscribers sdk f3 page
          (s.RemoveSubscriber f2 (s.AddSubscriber sdk now f1 b n e).2 n e).2 n).1.1 := by
  have _ := hadd
  rcases getSubscribers_cases sdk s f3 page
      (s.RemoveSubscriber f2 (s.AddSubscriber sdk now f1 b n e).2 n e).2 n with h | h
  · rw [h]; simp
  · rw [h]
    intro hmem
    rcases List.mem_map.mp hmem with ⟨r, hr, he⟩
    have hm := mem_matching _ n r (mem_cut page _ r hr)
    rw [removeSubscriber_table_of_ok s f2 _ n e hrem] at hm
    exact ((mem_without _ n e r).mp hm.1).2 ⟨hm.2, he⟩

/-- C2 on the empty table, for `digest` and `a@x.com`. -/
theorem add_remove_then_get_lacks_witness :
    (store0.AddSubscriber sdk0 5 none emptyBackend "digest" "a@x.com").1 = none ∧
    (store0.RemoveSubscriber none
        (store0.AddSubscriber sdk0 5 none emptyBackend "digest" "a@x.com").2
        "digest" "a@x.com").1 = none ∧
    "a@x.com" ∉ (store0.GetSubscribers sdk0 none none
        (store0.RemoveSubscriber none
          (store0.AddSubscriber sdk0 5 none emptyBackend "digest" "a@x.com").2
          "digest" "a@x.com").2 "digest").1.1 :=
  ⟨by decide, by decide,
   add_remove_then_get_lacks sdk0 store0 5 none none none none emptyBackend "digest"
     "a@x.com" (by decide) (by decide)⟩

/-- C3, as stated, fails in its remark on `GetSubscribers`: on the table
holding `a@x.com`, after `AddSubscriber("digest", "b@x.com")` twice, both
returning no error, a `GetSubscribers("digest")` whose response is cut after one
item returns no error and a list in which `b@x.com` does not occur. -/
theorem add_twice_not_listed :
    (store0.AddSubscriber sdk0 6 none oneSubscriber "digest" "b@x.com").1 = none ∧
    (store0.AddSubscriber sdk0 9 none
        (store0.AddSubscriber sdk0 6 none oneSubscriber "digest" "b@x.com").2
        "digest" "b@x.com").1 = none ∧
    (store0.GetSubscribers sdk0 none (some 0)
        (store0.AddSubscriber sdk0 9 none
          (store0.AddSubscriber sdk0 6 none oneSubscriber "digest" "b@x.com").2
          "digest" "b@x.com").2 "digest").1 = (["a@x.com"], none) ∧
    (store0.GetSubscribers sdk0 none (some 0)
        (store0.AddSubscriber sdk0 9 none
          (store0.AddSubscriber sdk0 6 none oneSubscriber "digest" "b@x.com").2
          "digest" "b@x.com").2 "digest").1.1.count "b@x.com" = 0 := by
  decide

/-- C3, amended: for every table state and pair `(n, e)`, after
`AddSubscriber(n, e)` is called twice, both calls returning no error, the table
holds exactly one record of key `(n, e)`, its `created_at` is the encoding of
the time of the second call (and the record of the first call is gone when the
two encodings differ); every `GetSubscribers(n)` that returns no error lists `e`
at most once, and exactly once when its query response carries the whole result
(it is not cut to a page). -/
theorem add_twice_one_record (sdk : SDK) (s : Store) (t1 t2 : Time) (f1 f2 : Option Err)
    (b : Backend) (n e : String)
    (h1 : (s.AddSubscriber sdk t1 f1 b n e).1 = none)
    (h2 : (s.AddSubscriber sdk t2 f2 (s.AddSubscriber sdk t1 f1 b n e).2 n e).1 = none) :
    (s.AddSubscriber sdk t2 f2 (s.AddSubscriber sdk t1 f1 b n e).2 n e).2.table.filter
        (fun r => decide (r.newsletter = n ∧ r.email = e))
      = [{ newsletter := n, email := e, rest := [("created_at", sdk.encodeTime t2)] }] ∧
    (sdk.encodeTime t1 ≠ sdk.encodeTime t2 →
      ({ newsletter := n, email := e, rest := [("created_at", sdk.encodeTime t1)] } : Record)
        ∉ (s.AddSubscriber sdk t2 f2 (s.AddSubscriber sdk t1 f1 b n e).2 n e).2.table) ∧
    (∀ (f3 : Option Err) (page : Option Nat),
      (s.GetSubscribers sdk f3 page
        (s.AddSubscriber sdk t2 f2 (s.AddSubscriber sdk t1 f1 b n e).2 n e).2 n).1.2 = none →
      (s.GetSubscribers sdk f3 page
        (s.AddSubscriber sdk t2 f2 (s.AddSubscriber sdk t1 f1 b n e).2 n e).2 n).1.1.count e
        ≤ 1 ∧
      ((s.AddSubscriber sdk t2 f2 (s.AddSubscriber sdk t1 f1 b n e).2 n e).2.complete page n
          = true →
        (s.GetSubscribers sdk f3 page
          (s.AddSubscriber sdk t2 f2 (s.AddSubscriber sdk t1 f1 b n e).2 n e).2 n).1.1.count e
          = 1)) := by
  have _ := h1
  obtain ⟨hn, _, ht⟩ := addSubscriber_of_ok sdk s t2 f2 _ n e h2
  refine ⟨?_, ?_, ?_⟩
  · obtain ⟨l1, l2, hp, hq⟩ := filter_place_pos
      (fun r => decide (r.newsletter = n ∧ r.email = e)) (written sdk t2 n e)
      (without (s.AddSubscriber sdk t1 f1 b n e).2.table n e) (by simp [written])
    rw [filter_key_without] at hq
    have hl1 : l1 = [] := (List.append_eq_nil.mp hq.symm).1
    have hl2 : l2 = [] := (List.append_eq_nil.mp hq.symm).2
    rw [ht, hp, hl1, hl2]
    rfl
  · intro hne hmem
    rw [ht, mem_place] at hmem
    rcases hmem with h | h
    · apply hne
      simp only [written, Record.mk.injEq, true_and] at h
      simpa using h
    · exact ((mem_without _ n e _).mp h).2 ⟨rfl, rfl⟩
  · intro f3 page hget
    have hfull : ((((s.AddSubscriber sdk t2 f2 (s.AddSubscriber sdk t1 f1 b n e).2 n e).2).matching
        n).map Record.email).count e = 1 := by
      rw [matching_of_ne _ n hn, Backend.partition, ht]
      exact count_emails_place sdk t2 _ n e
    rw [getSubscribers_ok sdk s f3 page _ n hget]
    constructor
    · rw [← hfull]
      exact ((cut_sublist page _).map Record.email).count_le e
    · intro hc
      rw [cut_of_complete _ page n hc]
      exact hfull

/-- The amended C3 on the empty table, with the two calls at times 5 and 9. -/
theorem add_twice_one_record_witness :
    (store0.AddSubscriber sdk0 5 none emptyBackend "digest" "a@x.com").1 = none ∧
    (store0.AddSubscriber sdk0 9 none
        (store0.AddSubscriber sdk0 5 none emptyBackend "digest" "a@x.com").2
        "digest" "a@x.com").1 = none ∧
    (store0.AddSubscriber sdk0 9 none
        (store0.AddSubscriber sdk0 5 none emptyBackend "digest" "a@x.com").2
        "digest" "a@x.com").2.table.filter
        (fun r => decide (r.newsletter = "digest" ∧ r.email = "a@x.com"))
      = [{ newsletter := "digest", email := "a@x.com",
           rest := [("created_at", sdk0.encodeTime 9)] }] ∧
    (store0.GetSubscribers sdk0 none none
        (store0.AddSubscriber sdk0 9 none
          (store0.AddSubscriber sdk0 5 none emptyBackend "digest" "a@x.com").2
          "digest" "a@x.com").2 "digest").1.1.count "a@x.com" = 1 :=
  ⟨by decide, by decide,
   (add_twice_one_record sdk0 store0 5 9 none none emptyBackend "digest" "a@x.com"
     (by decide) (by decide)).1,
   ((add_twice_one_record sdk0 store0 5 9 none none emptyBackend "digest" "a@x.com"
     (by decide) (by decide)).2.2 none none (by decide)).2 (by decide)⟩

/-- C4: for every table state and pair `(n, e)` of which the table holds no
record, `RemoveSubscriber(n, e)`, its delete request being served, returns no
error and leaves the table unchanged; and a second `RemoveSubscriber(n, e)`
returns the same error (none) and the same table as the first. -/
theorem remove_absent_noop (s : Store) (b : Backend) (n e : String)
    (habs : ∀ r ∈ b.table, ¬ (r.newsletter = n ∧ r.email = e)) :
    (s.RemoveSubscriber none b n e).1 = none ∧
    (s.RemoveSubscriber none b n e).2.table = b.table ∧
    (s.RemoveSubscriber none (s.RemoveSubscriber none b n e).2 n e).1
      = (s.RemoveSubscriber none b n e).1 ∧
    (s.RemoveSubscriber none (s.RemoveSubscriber none b n e).2 n e).2.table
      = (s.RemoveSubscriber none b n e).2.table := by
  have hw := without_eq_self b.table n e habs
  refine ⟨rfl, ?_, rfl, ?_⟩
  · rw [removeSubscriber_table_of_ok s none b n e rfl, hw]
  · rw [removeSubscriber_table_of_ok s none _ n e rfl,
      removeSubscriber_table_of_ok s none b n e rfl, without_idem]

/-- C4 on a table that holds `a@x.com` only, removing `b@x.com`. -/
theorem remove_absent_noop_witness :
    (∀ r ∈ (store0.AddSubscriber sdk0 5 none emptyBackend "digest" "a@x.com").2.table,
      ¬ (r.newsletter = "digest" ∧ r.email = "b@x.com")) ∧
    (store0.RemoveSubscriber none
        (store0.AddSubscriber sdk0 5 none emptyBackend "digest" "a@x.com").2
        "digest" "b@x.com").1 = none ∧
    (store0.RemoveSubscriber none
        (store0.AddSubscriber sdk0 5 none emptyBackend "digest" "a@x.com").2
        "digest" "b@x.com").2.table
      = (store0.AddSubscriber sdk0 5 none emptyBackend "digest" "a@x.com").2.table :=
  ⟨by decide,
   (remove_absent_noop store0
     (store0.AddSubscriber sdk0 5 none emptyBackend "digest" "a@x.com").2
     "digest" "b@x.com" (by decide)).1,
   (remove_absent_noop store0
     (store0.AddSubscriber sdk0 5 none emptyBackend "digest" "a@x.com").2
     "digest" "b@x.com" (by decide)).2.1⟩

/-- C5, as stated, fails: on the empty table, which holds no record of
partition `digest`, `GetSubscribers("digest")` whose query request fails with
`RequestError` returns that error. -/
theorem get_empty_query_fails :
    (∀ r ∈ emptyBackend.table, r.newsletter ≠ "digest") ∧
    (store0.GetSubscribers sdk0 (some "RequestError") none emptyBackend "digest").1
      = ([], some "RequestError") := by
  decide

/-- C5, amended: for every table state and every newsletter `n` of which the
table holds no record, `GetSubscribers(n)` returns an empty list (length 0), and
it returns no error exactly when building the query expression and the query
request both succeed. -/
theorem get_empty_partition (sdk : SDK) (s : Store) (fault : Option Err) (page : Option Nat)
    (b : Backend) (n : String) (habs : ∀ r ∈ b.table, r.newsletter ≠ n) :
    (s.GetSubscribers sdk fault page b n).1.1 = [] ∧
    (s.GetSubscribers sdk fault page b n).1.1.length = 0 ∧
    ((s.GetSubscribers sdk fault page b n).1.2 = none ↔
      sdk.buildErr "newsletter" n = none ∧ fault = none) := by
  have hm : b.matching n = [] := by
    rw [matching_eq, partition_eq_nil b n habs]; simp
  have hc : cut page (b.matching n) = [] := by
    rw [hm]; cases page <;> rfl
  rw [getSubscribers_eq, hc]
  cases hb : sdk.buildErr "newsletter" n with
  | some err => simp
  | none =>
    cases fault with
    | some err => simp
    | none => simp [emailsOf, UnmarshalListOfMaps, collectEmails]

/-- The amended C5 on a table that holds a record of `digest` only, read for
`weekly`. -/
theorem get_empty_partition_witness :
    (∀ r ∈ (store0.AddSubscriber sdk0 5 none emptyBackend "digest" "a@x.com").2.table,
      r.newsletter ≠ "weekly") ∧
    (store0.GetSubscribers sdk0 none none
        (store0.AddSubscriber sdk0 5 none emptyBackend "digest" "a@x.com").2 "weekly").1.1
      = [] :=
  ⟨by decide,
   (get_empty_partition sdk0 store0 none none
     (store0.AddSubscriber sdk0 5 none emptyBackend "digest" "a@x.com").2 "weekly"
     (by decide)).1⟩

/-- C6, as stated, fails in its last clause: on the table holding `a@x.com` and
`b@x.com` in partition `digest`, a `GetSubscribers("digest")` whose response is
cut after one item returns no error and the list of `a@x.com` alone, so the
record of `b@x.com`, whose newsletter is `digest`, is not among the emails. -/
theorem get_cut_response :
    (store0.GetSubscribers sdk0 none (some 0) twoSubscribers "digest").1
      = (["a@x.com"], none) ∧
    (∃ r ∈ twoSubscribers.table, r.newsletter = "digest" ∧ r.email = "b@x.com") ∧
    "b@x.com" ∉ (store0.GetSubscribers sdk0 none (some 0) twoSubscribers "digest").1.1 := by
  decide

/-- C6, amended: whatever items a response holds, when decoding them succeeds
the list `GetSubscribers` makes of them is the decoded `email` field of each
item, one entry per item, in the order of the items (same length, nothing
filtered, sorted or deduplicated).  For every table state and newsletter `n`,
when `GetSubscribers(n)` returns no error, it returns that list for the items of
the one response of its query; every item of the response is a record of the
table whose newsletter is `n`; and when the response is not cut to a page (it
has no `LastEvaluatedKey`) and `n` is not empty, the items are all the records
of the table whose newsletter is `n`. -/
theorem get_returns_query_emails (sdk : SDK) (s : Store) (fault : Option Err)
    (page : Option Nat) (b : Backend) (n : String)
    (hok : (s.GetSubscribers sdk fault page b n).1.2 = none) :
    (∀ items : List AttrMap, (emailsOf sdk items).2 = none →
      (emailsOf sdk items).1.length = items.length ∧
      items.map (fun m => decodeString (m.get "email"))
        = (emailsOf sdk items).1.map Except.ok) ∧
    ∃ (q : QueryInput) (out : QueryOutput),
      (s.GetSubscribers sdk fault page b n).2.log = .Query q :: b.log ∧
      (QueryRequest.Send fault page b q).1 = .ok out ∧
      (s.GetSubscribers sdk fault page b n).1 = emailsOf sdk out.Items ∧
      (∀ m ∈ out.Items, ∃ r ∈ b.table, r.newsletter = n ∧ m = r.toItem) ∧
      (out.LastEvaluatedKey = none → n ≠ "" →
        out.Items
          = (b.table.filter (fun r => decide (r.newsletter = n))).map Record.toItem ∧
        (s.GetSubscribers sdk fault page b n).1.1
          = (b.table.filter (fun r => decide (r.newsletter = n))).map Record.email) := by
  constructor
  · intro items hdec
    unfold emailsOf at hdec ⊢
    cases hu : UnmarshalListOfMaps sdk items with
    | error err => simp [hu] at hdec
    | ok results =>
      have hf := unmarshalList_fields sdk items results hu
      simp only [collectEmails_eq_map]
      exact ⟨by simp [hf.1], hf.2⟩
  · have hemails := getSubscribers_ok sdk s fault page b n hok
    have hiff := (getSubscribers_ok_iff sdk s fault page b n).mp hok
    obtain ⟨hb, hfault, _⟩ := hiff
    subst hfault
    refine ⟨queryInput s n,
      { Items := (cut page (b.matching n)).map Record.toItem,
        LastEvaluatedKey := lastKey page (b.matching n) }, ?_, ?_, ?_, ?_, ?_⟩
    · rw [getSubscribers_backend sdk s none page b n hb]
    · rw [query_send_eq]
    · rw [getSubscribers_eq, hb]
    · intro m hm
      rcases List.mem_map.mp hm with ⟨r, hr, hrm⟩
      have h := mem_matching b n r (mem_cut page _ r hr)
      exact ⟨r, h.1, h.2, hrm.symm⟩
    · intro hlast hn
      have hc := (lastKey_eq_none_iff b page n).mp hlast
      have hcut := cut_of_complete b page n hc
      have hpart := matching_of_ne b n hn
      unfold Backend.partition at hpart
      constructor
      · show (cut page (b.matching n)).map Record.toItem = _
        rw [hcut, hpart]
      · rw [hemails, hcut, hpart]

/-- The amended C6 on a table that holds one record of `digest`. -/
theorem get_returns_query_emails_witness :
    (store0.GetSubscribers sdk0 none none oneSubscriber "digest").1.2 = none ∧
    ∃ (q : QueryInput) (out : QueryOutput),
      (store0.GetSubscribers sdk0 none none oneSubscriber "digest").2.log
        = .Query q :: oneSubscriber.log ∧
      (QueryRequest.Send none none oneSubscriber q).1 = .ok out ∧
      (store0.GetSubscribers sdk0 none none oneSubscriber "digest").1
        = emailsOf sdk0 out.Items :=
  ⟨by decide,
   match (get_returns_query_emails sdk0 store0 none none oneSubscriber "digest"
     (by decide)).2 with
   | ⟨q, out, h1, h2, h3, _⟩ => ⟨q, out, h1, h2, h3⟩⟩

/-- C7: for each of the three operations, whenever the one storage request the
operation sends (put, delete, query) fails with error `x`, the operation returns
exactly `x` as its error, and it has sent that one request and no other. -/
theorem request_error_returned (sdk : SDK) (s : Store) (now : Time) (fault : Option Err)
    (page : Option Nat) (b : Backend) (n e : String) (x : Err) :
    (∀ i : AttrMap,
      MarshalMap sdk { Newsletter := n, Email := e, CreatedAt := now } = .ok i →
      (PutItemRequest.Send fault b { TableName := s.TableName, Item := i }).1 = some x →
      (s.AddSubscriber sdk now fault b n e).1 = some x ∧
      (s.AddSubscriber sdk now fault b n e).2.log
        = .PutItem { TableName := s.TableName, Item := i } :: b.log) ∧
    ((DeleteItemRequest.Send fault b
        { TableName := s.TableName,
          Key := [("newsletter", .S n), ("email", .S e)] }).1 = some x →
      (s.RemoveSubscriber fault b n e).1 = some x ∧
      (s.RemoveSubscriber fault b n e).2.log
        = .DeleteItem { TableName := s.TableName,
                        Key := [("newsletter", .S n), ("email", .S e)] } :: b.log) ∧
    (∀ expr : Expression,
      Build sdk "newsletter" n = .ok expr →
      (QueryRequest.Send fault page b
        { ExpressionAttributeValues := expr.Values,
          ExpressionAttributeNames := expr.Names,
          KeyConditionExpression := expr.KeyCondition,
          TableName := s.TableName }).1 = .error x →
      (s.GetSubscribers sdk fault page b n).1.2 = some x ∧
      (s.GetSubscribers sdk fault page b n).2.log
        = .Query { ExpressionAttributeValues := expr.Values,
                   ExpressionAttributeNames := expr.Names,
                   KeyConditionExpression := expr.KeyCondition,
                   TableName := s.TableName } :: b.log) := by
  refine ⟨?_, ?_, ?_⟩
  · intro i hm hsend
    unfold Store.AddSubscriber
    rw [hm]
    refine ⟨hsend, ?_⟩
    unfold PutItemRequest.Send
    cases fault with
    | some err => rfl
    | none =>
      cases hr : Record.ofItem i with
      | none => simp [hr]
      | some r => simp [hr]
  · intro hsend
    unfold Store.RemoveSubscriber
    refine ⟨hsend, ?_⟩
    unfold DeleteItemRequest.Send
    cases fault with
    | some err => rfl
    | none => rfl
  · intro expr hbuild hsend
    unfold Store.GetSubscribers
    rw [hbuild]
    simp only []
    generalize hq : QueryRequest.Send fault page b
        { ExpressionAttributeValues := expr.Values,
          ExpressionAttributeNames := expr.Names,
          KeyConditionExpression := expr.KeyCondition,
          TableName := s.TableName } = res at hsend ⊢
    have hlog : res.2.log = .Query
        { ExpressionAttributeValues := expr.Values,
          ExpressionAttributeNames := expr.Names,
          KeyConditionExpression := expr.KeyCondition,
          TableName := s.TableName } :: b.log := by
      rw [← hq]
      unfold QueryRequest.Send
      cases fault with
      | some err => rfl
      | none =>
        simp only []
        split <;> rfl
    rcases res with ⟨r, b1⟩
    simp only at hsend hlog
    subst hsend
    exact ⟨rfl, hlog⟩

/-- C7 with every request failing with `Throttled`. -/
theorem request_error_returned_witness :
    (PutItemRequest.Send (some "Throttled") emptyBackend
        { TableName := store0.TableName,
          Item := [("newsletter", .S "digest"), ("email", .S "a@x.com"),
                   ("created_at", sdk0.encodeTime 5)] }).1 = some "Throttled" ∧
    (store0.AddSubscriber sdk0 5 (some "Throttled") emptyBackend "digest" "a@x.com").1
      = some "Throttled" ∧
    (store0.RemoveSubscriber (some "Throttled") emptyBackend "digest" "a@x.com").1
      = some "Throttled" ∧
    (store0.GetSubscribers sdk0 (some "Throttled") none emptyBackend "digest").1.2
      = some "Throttled" :=
  ⟨by decide,
   ((request_error_returned sdk0 store0 5 (some "Throttled") none emptyBackend "digest"
      "a@x.com" "Throttled").1 _ rfl (by decide)).1,
   ((request_error_returned sdk0 store0 5 (some "Throttled") none emptyBackend "digest"
      "a@x.com" "Throttled").2.1 (by decide)).1,
   ((request_error_returned sdk0 store0 5 (some "Throttled") none emptyBackend "digest"
      "a@x.com" "Throttled").2.2 _ rfl rfl).1⟩

/-- C8: for every table state and pair `(n, e)`, if encoding the record in
`AddSubscriber` fails with error `x`, `AddSubscriber` returns `x`, and the
state of the storage service is what it was: no request has been received and
the table is unchanged. -/
theorem marshal_error_aborts (sdk : SDK) (s : Store) (now : Time) (fault : Option Err)
    (b : Backend) (n e : String) (x : Err)
    (h : MarshalMap sdk { Newsletter := n, Email := e, CreatedAt := now } = .error x) :
    (s.AddSubscriber sdk now fault b n e).1 = some x ∧
    (s.AddSubscriber sdk now fault b n e).2.log = b.log ∧
    (s.AddSubscriber sdk now fault b n e).2.table = b.table := by
  unfold Store.AddSubscriber
  rw [h]
  exact ⟨rfl, rfl, rfl⟩

/-- C8 with an encoder that fails with `MarshalError`. -/
theorem marshal_error_aborts_witness :
    MarshalMap sdkFailing { Newsletter := "digest", Email := "a@x.com", CreatedAt := 5 }
      = .error "MarshalError" ∧
    (store0.AddSubscriber sdkFailing 5 none emptyBackend "digest" "a@x.com").1
      = some "MarshalError" ∧
    (store0.AddSubscriber sdkFailing 5 none emptyBackend "digest" "a@x.com").2.log = [] ∧
    (store0.AddSubscriber sdkFailing 5 none emptyBackend "digest" "a@x.com").2.table = [] :=
  ⟨rfl, marshal_error_aborts sdkFailing store0 5 none emptyBackend "digest" "a@x.com"
    "MarshalError" rfl⟩

/-- C9, as stated, fails in its clause on the emails of partition `n`: on the
table holding `a@x.com`, `b@x.com` and `c@x.com`, with responses cut after two
items, `GetSubscribers("digest")` returns `a@x.com` and `b@x.com`; after
`RemoveSubscriber("digest", "a@x.com")`, which returns no error, it returns
`b@x.com` and `c@x.com`, and `c@x.com` was not in the previous list. -/
theorem remove_cut_response :
    (store0.RemoveSubscriber none threeSubscribers "digest" "a@x.com").1 = none ∧
    (store0.GetSubscribers sdk0 none (some 1) threeSubscribers "digest").1
      = (["a@x.com", "b@x.com"], none) ∧
    (store0.GetSubscribers sdk0 none (some 1)
        (store0.RemoveSubscriber none threeSubscribers "digest" "a@x.com").2 "digest").1
      = (["b@x.com", "c@x.com"], none) ∧
    "c@x.com" ∉ (store0.GetSubscribers sdk0 none (some 1) threeSubscribers "digest").1.1 := by
  decide

/-- C9, amended: for every table state and pair `(n, e)`, whatever their
outcome, `AddSubscriber(n, e)` and `RemoveSubscriber(n, e)` leave the records of
every other key as they were (same records, same order), and `GetSubscribers(n2)`
returns the same result as before for every `n2` different from `n`; and after
a `RemoveSubscriber(n, e)` that returns no error, a `GetSubscribers(n)` that
returned no error before, with a query response that carried the whole result
(not cut to a page), still returns no error, and its list is the previous list
without `e`: as a set, the previous set of emails minus `e`. -/
theorem add_remove_frame (sdk : SDK) (s : Store) (now : Time) (fault : Option Err)
    (b : Backend) (n e : String) :
    (s.AddSubscriber sdk now fault b n e).2.table.filter
        (fun r => !decide (r.newsletter = n ∧ r.email = e))
      = b.table.filter (fun r => !decide (r.newsletter = n ∧ r.email = e)) ∧
    (s.RemoveSubscriber fault b n e).2.table.filter
        (fun r => !decide (r.newsletter = n ∧ r.email = e))
      = b.table.filter (fun r => !decide (r.newsletter = n ∧ r.email = e)) ∧
    (∀ (n2 : String) (f : Option Err) (page : Option Nat), n2 ≠ n →
      (s.GetSubscribers sdk f page (s.AddSubscriber sdk now fault b n e).2 n2).1
        = (s.GetSubscribers sdk f page b n2).1 ∧
      (s.GetSubscribers sdk f page (s.RemoveSubscriber fault b n e).2 n2).1
        = (s.GetSubscribers sdk f page b n2).1) ∧
    ((s.RemoveSubscriber fault b n e).1 = none →
      ∀ (f : Option Err) (page : Option Nat),
        (s.GetSubscribers sdk f page b n).1.2 = none → b.complete page n = true →
        (s.GetSubscribers sdk f page (s.RemoveSubscriber fault b n e).2 n).1.2 = none ∧
        (s.GetSubscribers sdk f page (s.RemoveSubscriber fault b n e).2 n).1.1
          = (s.GetSubscribers sdk f page b n).1.1.filter (fun x => decide (x ≠ e)) ∧
        ∀ x : String,
          x ∈ (s.GetSubscribers sdk f page (s.RemoveSubscriber fault b n e).2 n).1.1 ↔
            x ∈ (s.GetSubscribers sdk f page b n).1.1 ∧ x ≠ e) := by
  have hadd : without (s.AddSubscriber sdk now fault b n e).2.table n e
      = without b.table n e := by
    rcases addSubscriber_table_cases sdk s now fault b n e with h | h
    · rw [h]
    · rw [h, without_place]
  have hrem : without (s.RemoveSubscriber fault b n e).2.table n e
      = without b.table n e := by
    rcases removeSubscriber_table_cases s fault b n e with h | h
    · rw [h]
    · rw [h, without_idem]
  refine ⟨hadd, hrem, ?_, ?_⟩
  · intro n2 f page hne
    constructor
    · exact getSubscribers_congr sdk s f page b _ n2
        (matching_ne_of_without b _ n e n2 hne hadd)
    · exact getSubscribers_congr sdk s f page b _ n2
        (matching_ne_of_without b _ n e n2 hne hrem)
  · intro hok f page hbefore hc
    have htable := removeSubscriber_table_of_ok s fault b n e hok
    have hc2 := complete_without b _ page n e htable hc
    have hafter :
        (s.GetSubscribers sdk f page (s.RemoveSubscriber fault b n e).2 n).1.2 = none := by
      rw [getSubscribers_ok_iff] at hbefore ⊢
      refine ⟨hbefore.1, hbefore.2.1, ?_⟩
      intro r hr
      apply hbefore.2.2
      rw [cut_of_complete _ page n hc2] at hr
      rw [cut_of_complete _ page n hc]
      exact mem_matching_without b _ n e r htable hr
    have hlist : (s.GetSubscribers sdk f page (s.RemoveSubscriber fault b n e).2 n).1.1
        = (s.GetSubscribers sdk f page b n).1.1.filter (fun x => decide (x ≠ e)) := by
      rw [getSubscribers_ok sdk s f page _ n hafter, getSubscribers_ok sdk s f page b n hbefore,
        cut_of_complete _ page n hc2, cut_of_complete _ page n hc,
        matching_without b _ n e htable]
    refine ⟨hafter, hlist, ?_⟩
    intro x
    rw [hlist, List.mem_filter]
    simp

/-- The amended C9 on the table of three subscribers of `digest`, removing
`a@x.com`, with responses that carry all three. -/
theorem add_remove_frame_witness :
    (store0.RemoveSubscriber none threeSubscribers "digest" "a@x.com").1 = none ∧
    (store0.GetSubscribers sdk0 none (some 2) threeSubscribers "digest").1
      = (["a@x.com", "b@x.com", "c@x.com"], none) ∧
    threeSubscribers.complete (some 2) "digest" = true ∧
    (store0.GetSubscribers sdk0 none (some 2)
        (store0.RemoveSubscriber none threeSubscribers "digest" "a@x.com").2 "digest").1.1
      = ["a@x.com", "b@x.com", "c@x.com"].filter (fun x => decide (x ≠ "a@x.com")) :=
  ⟨by decide, by decide, by decide,
   by
    have h := ((add_remove_frame sdk0 store0 5 none threeSubscribers "digest"
      "a@x.com").2.2.2 (by decide) none (some 2) (by decide) (by decide)).2.1
    have h2 : (store0.GetSubscribers sdk0 none (some 2) threeSubscribers "digest").1.1
        = ["a@x.com", "b@x.com", "c@x.com"] := by decide
    rw [h2] at h
    exact h⟩

/-- C10, as stated, fails at an empty string: for `("digest", "")` the item
`AddSubscriber` sends holds NULL in `email`, while the key `RemoveSubscriber`
sends holds the empty string there, so the two do not carry the same values;
and the query of `GetSubscribers("")` binds NULL, not a string. -/
theorem empty_string_sent_as_null :
    (store0.AddSubscriber sdk0 5 none emptyBackend "digest" "").2.log
      = [.PutItem { TableName := "news",
                    Item := [("newsletter", .S "digest"), ("email", .NULL),
                             ("created_at", .S "5")] }] ∧
    (store0.RemoveSubscriber none emptyBackend "digest" "").2.log
      = [.DeleteItem { TableName := "news",
                       Key := [("newsletter", .S "digest"), ("email", .S "")] }] ∧
    (store0.GetSubscribers sdk0 none none emptyBackend "").2.log
      = [.Query { ExpressionAttributeValues := [(":0", .NULL)],
                  ExpressionAttributeNames := [("#0", "newsletter")],
                  KeyConditionExpression := ("#0", ":0"),
                  TableName := "news" }] := by
  decide

/-- C10, amended: for every pair `(n, e)`, the one request `AddSubscriber(n, e)`
sends once the record is encoded is a put whose item has exactly three
attributes, named by the struct tags of `item`: `newsletter`, `email` and
`created_at`, holding the encodings of `n`, `e` and the current time; the one
request `RemoveSubscriber(n, e)` sends is a delete whose key has exactly the
attributes `newsletter` and `email`, holding the strings `n` and `e`; and the
query `GetSubscribers(n)` sends once the expression is built has the key
condition `newsletter = ` the encoding of `n`.  When `n` and `e` are not empty,
the encodings are the strings `n` and `e` themselves, the key carries the same
two values as the item, and it selects the record stored for that item and only
records of that key. -/
theorem request_field_names (sdk : SDK) (s : Store) (now : Time) (fault : Option Err)
    (page : Option Nat) (b : Backend) (n e : String) :
    (sdk.marshalErr { Newsletter := n, Email := e, CreatedAt := now } = none →
      ∃ (i k : AttrMap),
        (s.AddSubscriber sdk now fault b n e).2.log
          = .PutItem { TableName := s.TableName, Item := i } :: b.log ∧
        i.map Prod.fst = item.tags ∧
        item.tags = ["newsletter", "email", "created_at"] ∧
        i.get "newsletter" = some (encodeString n) ∧
        i.get "email" = some (encodeString e) ∧
        i.get "created_at" = some (sdk.encodeTime now) ∧
        (s.RemoveSubscriber fault b n e).2.log
          = .DeleteItem { TableName := s.TableName, Key := k } :: b.log ∧
        k.map Prod.fst = ["newsletter", "email"] ∧
        k.get "newsletter" = some (.S n) ∧ k.get "email" = some (.S e) ∧
        (n ≠ "" → e ≠ "" →
          i.get "newsletter" = some (.S n) ∧ i.get "email" = some (.S e) ∧
          k.get "newsletter" = i.get "newsletter" ∧ k.get "email" = i.get "email" ∧
          ∃ r0 : Record, Record.ofItem i = some r0 ∧ r0.hasKey k = true ∧
            ∀ r : Record, r.hasKey k = true ↔ r.newsletter = n ∧ r.email = e)) ∧
    (sdk.buildErr "newsletter" n = none →
      ∃ q : QueryInput,
        (s.GetSubscribers sdk fault page b n).2.log = .Query q :: b.log ∧
        q.TableName = s.TableName ∧
        q.ExpressionAttributeNames.lookup q.KeyConditionExpression.1 = some "newsletter" ∧
        q.ExpressionAttributeValues.get q.KeyConditionExpression.2
          = some (encodeString n) ∧
        (n ≠ "" →
          q.ExpressionAttributeValues.get q.KeyConditionExpression.2 = some (.S n))) := by
  constructor
  · intro hm
    refine ⟨[("newsletter", encodeString n), ("email", encodeString e),
        ("created_at", sdk.encodeTime now)],
      [("newsletter", .S n), ("email", .S e)], ?_, rfl, rfl, ?_, ?_, ?_, ?_, rfl, ?_, ?_, ?_⟩
    · rw [addSubscriber_log sdk s now fault b n e hm]; rfl
    · simp [AttrMap.get]
    · simp [AttrMap.get]
    · simp [AttrMap.get]
    · rw [removeSubscriber_eq]
      cases fault with
      | some err => rfl
      | none => rfl
    · simp [AttrMap.get]
    · simp [AttrMap.get]
    · intro hn he
      rw [encodeString_of_ne n hn, encodeString_of_ne e he]
      refine ⟨by simp [AttrMap.get], by simp [AttrMap.get], by simp [AttrMap.get],
        by simp [AttrMap.get], written sdk now n e, ofItem_marshalled n e _, ?_, ?_⟩
      · rw [hasKey_pair]; simp [written]
      · intro r
        rw [hasKey_pair]; simp
  · intro hb
    refine ⟨queryInput s n, ?_, rfl, ?_, ?_, ?_⟩
    · rw [getSubscribers_backend sdk s fault page b n hb]
    · simp [queryInput, List.lookup]
    · simp [queryInput, AttrMap.get]
    · intro hn
      simp [queryInput, AttrMap.get, encodeString_of_ne n hn]

/-- The amended C10 on the empty table, for `digest` and `a@x.com`. -/
theorem request_field_names_witness :
    sdk0.marshalErr { Newsletter := "digest", Email := "a@x.com", CreatedAt := 5 } = none ∧
    sdk0.buildErr "newsletter" "digest" = none ∧
    (∃ (i k : AttrMap),
      (store0.AddSubscriber sdk0 5 none emptyBackend "digest" "a@x.com").2.log
        = .PutItem { TableName := store0.TableName, Item := i } :: emptyBackend.log ∧
      i.map Prod.fst = item.tags ∧
      (store0.RemoveSubscriber none emptyBackend "digest" "a@x.com").2.log
        = .DeleteItem { TableName := store0.TableName, Key := k } :: emptyBackend.log ∧
      k.map Prod.fst = ["newsletter", "email"] ∧
      k.get "newsletter" = i.get "newsletter" ∧ k.get "email" = i.get "email") ∧
    (∃ q : QueryInput,
      (store0.GetSubscribers sdk0 none none emptyBackend "digest").2.log
        = .Query q :: emptyBackend.log ∧
      q.ExpressionAttributeValues.get q.KeyConditionExpression.2 = some (.S "digest")) :=
  ⟨rfl, rfl,
   match (request_field_names sdk0 store0 5 none none emptyBackend "digest" "a@x.com").1
     rfl with
   | ⟨i, k, h1, h2, _, _, _, _, h7, h8, _, _, h11⟩ =>
     ⟨i, k, h1, h2, h7, h8, (h11 (by decide) (by decide)).2.2.1,
       (h11 (by decide) (by decide)).2.2.2.1⟩,
   match (request_field_names sdk0 store0 5 none none emptyBackend "digest" "a@x.com").2
     rfl with
   | ⟨q, h1, _, _, _, h5⟩ => ⟨q, h1, h5 (by decide)⟩⟩

end News
